import Mathlib

/-!
Shallow embedding of two Babylon.js subsystems:

* `_WebAudioEngine` from
  `packages/dev/core/src/Audio/v2/webAudio/webAudioEngine.ts`
* `_IblShadowsSpatialBlurPass` from
  `packages/dev/core/src/Rendering/IBLShadows/iblShadowsSpatialBlurPass.ts`

Browser objects are modelled explicitly: the audio context's `resume()`
returns a fresh promise (promises are identified by natural numbers
allocated from a counter), `setInterval` returns a fresh timer id,
`canPlayType` is an oracle passed as a function argument, and JS `Set`
objects are duplicate-free lists.  Methods become pure state-passing
functions; an `async` method that falls off its end without a `return`
statement yields `none` (the `undefined` resolution value).
-/

set_option autoImplicit false

namespace WebAudio

/-- The states of a browser `AudioContext` (`BaseAudioContext.state`,
plus the iOS-specific "interrupted" state the source checks for). -/
inductive CtxState where
  | running
  | suspended
  | interrupted
  | closed
deriving DecidableEq, Repr

/-- Model of `_WebAudioMainOutput`: only its `volume` property is touched
by the excerpted engine code. -/
structure MainOutput where
  volume : ℚ
deriving DecidableEq, Repr

/-- The mutable state of a `_WebAudioEngine` instance together with the
bits of browser state it interacts with.  Fields mirror the private
fields of the class; `audioContextState` stands for
`this.audioContext.state`, `nextPromiseId`/`nextTimerId` are allocation
counters for the browser's promise and timer objects, and
`playedInstances` is the observation log of `instance.play()` calls. -/
structure EngineState where
  audioContextState : CtxState
  audioContextStarted : Bool
  resumePromise : Option ℕ
  mainOutput : Option MainOutput
  invalidFormats : List String
  validFormats : List String
  volume : ℚ
  resumeOnInteraction : Bool
  resumeOnPause : Bool
  resumeOnPauseRetryInterval : ℕ
  resumeOnPauseTimerId : Option ℕ
  soundInstancesToStartOnNextUserInteraction : List ℕ
  nextPromiseId : ℕ
  nextTimerId : ℕ
  playedInstances : List ℕ
deriving DecidableEq, Repr

/-- `this.audioContext.resume()`: the browser returns a fresh promise
object on every call.  Result is the promise's id and the new state. -/
def audioContextResume (s : EngineState) : ℕ × EngineState :=
  (s.nextPromiseId, { s with nextPromiseId := s.nextPromiseId + 1 })

/-- `_WebAudioEngine.resume`.  The returned `Option ℕ` is the value the
async method's promise resolves with: `return this._resumePromise` gives
`some p`; falling through the `if` without a `return` gives `none`
(`undefined`). -/
def resume (s : EngineState) : EngineState × Option ℕ :=
  match s.resumePromise with
  | some p => (s, some p)
  | none =>
      let r := audioContextResume s
      ({ r.2 with resumePromise := some r.1 }, none)

/-- `formatMimeTypeMap`: the fixed extension-to-MIME association list. -/
def formatMimeTypeMap : List (String × String) :=
  [ ("aac", "audio/aac"),
    ("ac3", "audio/ac3"),
    ("flac", "audio/flac"),
    ("m4a", "audio/mp4"),
    ("mp3", "audio/mpeg; codecs=\"mp3\""),
    ("mp4", "audio/mp4"),
    ("ogg", "audio/ogg; codecs=\"vorbis\""),
    ("wav", "audio/wav"),
    ("webm", "audio/webm; codecs=\"vorbis\"") ]

/-- `formatMimeTypeMap.get(format)`. -/
def lookupMimeType (format : String) : Option String :=
  (formatMimeTypeMap.find? (fun p => p.1 = format)).map (fun p => p.2)

/-- `flagInvalidFormat`: adds the format to the invalid set.  JS `Set.add`
is a no-op on an element already present. -/
def flagInvalidFormat (s : EngineState) (format : String) : EngineState :=
  if format ∈ s.invalidFormats then s
  else { s with invalidFormats := format :: s.invalidFormats }

/-- Outcome of one `formatIsValid` call: the post state, the returned
boolean, and whether this call performed a `canPlayType` probe (i.e.
constructed an `Audio` element and queried it). -/
structure FormatQuery where
  state : EngineState
  result : Bool
  probed : Bool
deriving DecidableEq, Repr

/-- `formatIsValid`, parametrised by the browser's
`HTMLMediaElement.canPlayType` capability oracle (MIME type to answer
string; the empty string means "cannot play"). -/
def formatIsValid (canPlayType : String → String) (s : EngineState) (format : String) :
    FormatQuery :=
  if format ∈ s.validFormats then
    ⟨s, true, false⟩
  else if format ∈ s.invalidFormats then
    ⟨s, false, false⟩
  else
    match lookupMimeType format with
    | none => ⟨s, false, false⟩
    | some mimeType =>
        if canPlayType mimeType = "" then
          ⟨{ s with invalidFormats := format :: s.invalidFormats }, false, true⟩
        else
          ⟨{ s with validFormats := format :: s.validFormats }, true, true⟩

/-- The `volume` getter: returns `this._volume`. -/
def getVolume (s : EngineState) : ℚ :=
  s.volume

/-- The `volume` setter: early-returns when the value is unchanged,
otherwise stores it and forwards it to the main output when one exists. -/
def setVolume (s : EngineState) (value : ℚ) : EngineState :=
  if s.volume = value then s
  else
    let s1 := { s with volume := value }
    match s1.mainOutput with
    | some m => { s1 with mainOutput := some { m with volume := value } }
    | none => s1

/-- `startSoundInstanceOnNextUserInteraction`: adds the instance to the
pending set (`Set.add`, so no duplicates). -/
def startSoundInstanceOnNextUserInteraction (s : EngineState) (inst : ℕ) : EngineState :=
  if inst ∈ s.soundInstancesToStartOnNextUserInteraction then s
  else
    { s with soundInstancesToStartOnNextUserInteraction :=
        s.soundInstancesToStartOnNextUserInteraction ++ [inst] }

/-- The `while (!next.done)` loop of `_onUserInteraction`: iterates over a
snapshot of the pending set, playing each instance and deleting it from
the set. -/
def drainLoop : List ℕ → EngineState → EngineState
  | [], s => s
  | inst :: rest, s =>
      drainLoop rest
        { s with
          playedInstances := s.playedInstances ++ [inst],
          soundInstancesToStartOnNextUserInteraction :=
            s.soundInstancesToStartOnNextUserInteraction.erase inst }

/-- `_onUserInteraction`: when resume-on-interaction is enabled, resumes
the audio context and drains the pending-instances set. -/
def onUserInteraction (s : EngineState) : EngineState :=
  if s.resumeOnInteraction then
    let s1 := (audioContextResume s).2
    drainLoop s1.soundInstancesToStartOnNextUserInteraction s1
  else s

/-- `_onAudioContextStateChange`: the `statechange` listener.  On
"running" it clears the retry timer, marks the context started, and
clears the cached resume promise; on "suspended"/"interrupted" it
(re)schedules the retry timer, but only once the context has started and
when resume-on-pause is enabled.  `clearInterval` followed by
`setInterval` is modelled by overwriting the timer field with a freshly
allocated id.  (The trailing `notifyObservers` call only fans the state
out to observers and is not modelled.) -/
def onAudioContextStateChange (s : EngineState) : EngineState :=
  let s1 :=
    if s.audioContextState = CtxState.running then
      { s with
        resumeOnPauseTimerId := none,
        audioContextStarted := true,
        resumePromise := none }
    else s
  if s1.audioContextState = CtxState.suspended ∨
      s1.audioContextState = CtxState.interrupted then
    if s1.audioContextStarted && s1.resumeOnPause then
      { s1 with
        resumeOnPauseTimerId := some s1.nextTimerId,
        nextTimerId := s1.nextTimerId + 1 }
    else s1
  else s1

/-- `IWebAudioEngineOptions`: all fields optional.  The audio context a
caller may pass in is identified by a number. -/
structure EngineOptions where
  audioContext : Option ℕ
  resumeOnInteraction : Option Bool
  resumeOnPause : Option Bool
  resumeOnPauseRetryInterval : Option ℕ
deriving DecidableEq, Repr

/-- The constructor's context choice:
`this.audioContext = options?.audioContext ?? new AudioContext()`.
Returns the context id and whether a new context was created;
`freshCtx` is the id the browser would give a newly constructed
`AudioContext`. -/
def constructorAudioContext (options : EngineOptions) (freshCtx : ℕ) : ℕ × Bool :=
  match options.audioContext with
  | some ctx => (ctx, false)
  | none => (freshCtx, true)

/-- The observable steps of engine creation, in program order. -/
inductive InitEvent where
  | contextCreated
  | existingContextUsed
  | clickListenerAdded
  | stateChangeListenerAdded
  | mainOutputCreated
  | mainOutputVolumeSet
  | defaultBusCreated
  | readyResolved
deriving DecidableEq, Repr

/-- The event trace of the constructor (`super()` aside, it only picks
the audio context). -/
def constructorTrace (options : EngineOptions) : List InitEvent :=
  match options.audioContext with
  | some _ => [InitEvent.existingContextUsed]
  | none => [InitEvent.contextCreated]

/-- The event trace of `init`: register the click listener, then await
`_initAudioContext` (which registers the `statechange` listener, creates
the main output, pushes the volume to it, and creates the "default" main
bus), then resolve the readiness promise. -/
def initTrace : List InitEvent :=
  [ InitEvent.clickListenerAdded,
    InitEvent.stateChangeListenerAdded,
    InitEvent.mainOutputCreated,
    InitEvent.mainOutputVolumeSet,
    InitEvent.defaultBusCreated,
    InitEvent.readyResolved ]

/-- `CreateAudioEngineAsync`: `new _WebAudioEngine(options)` followed by
`await engine.init(options)`. -/
def createEngineTrace (options : EngineOptions) : List InitEvent :=
  constructorTrace options ++ initTrace

/-- The engine state right after the constructor ran: the class field
initializers, with the option flags then overwritten by `init`. -/
def initState (options : EngineOptions) : EngineState :=
  { audioContextState := CtxState.suspended
    audioContextStarted := false
    resumePromise := none
    mainOutput := none
    invalidFormats := []
    validFormats := []
    volume := 1
    resumeOnInteraction := options.resumeOnInteraction.getD true
    resumeOnPause := options.resumeOnPause.getD true
    resumeOnPauseRetryInterval := options.resumeOnPauseRetryInterval.getD 1000
    resumeOnPauseTimerId := none
    soundInstancesToStartOnNextUserInteraction := []
    nextPromiseId := 0
    nextTimerId := 0
    playedInstances := [] }

end WebAudio

namespace IblBlur

/-- Texture format/type/sampling constants from `Engines/constants.ts`
(the file is outside this excerpt; only the names are used by the pass,
so the numeric values are nominal and distinct). -/
def TEXTUREFORMAT_R : ℕ := 6

/-- `Constants.TEXTUREFORMAT_RG`. -/
def TEXTUREFORMAT_RG : ℕ := 7

/-- `Constants.TEXTURETYPE_UNSIGNED_BYTE`. -/
def TEXTURETYPE_UNSIGNED_BYTE : ℕ := 0

/-- `Constants.TEXTURE_NEAREST_SAMPLINGMODE`. -/
def TEXTURE_NEAREST_SAMPLINGMODE : ℕ := 1

/-- `Constants.PREPASS_WORLD_NORMAL_TEXTURE_TYPE`. -/
def PREPASS_WORLD_NORMAL_TEXTURE_TYPE : ℕ := 8

/-- `Constants.PREPASS_DEPTH_TEXTURE_TYPE`. -/
def PREPASS_DEPTH_TEXTURE_TYPE : ℕ := 5

/-- A `Vector4`. -/
structure Vec4 where
  x : ℚ
  y : ℚ
  z : ℚ
  w : ℚ
deriving DecidableEq, Repr

/-- Model of a `PostProcess` instance: its identity (JS object
identity), the construction options the pass supplies, and its
readiness, which the wrapped effect system flips asynchronously. -/
structure PostProcess where
  id : ℕ
  name : String
  fragment : String
  width : ℕ
  height : ℕ
  textureFormat : ℕ
  textureType : ℕ
  samplingMode : ℕ
  uniforms : List String
  samplers : List String
  reusable : Bool
  autoClear : Bool
  ready : Bool
deriving DecidableEq, Repr

/-- The engine bits the pass reads at construction time. -/
structure EngineInfo where
  renderWidth : ℕ
  renderHeight : ℕ
deriving DecidableEq, Repr

/-- The mutable state of an `_IblShadowsSpatialBlurPass` instance.
`nextPPId` allocates JS object identities for created post-processes. -/
structure PassState where
  engine : EngineInfo
  worldScale : ℚ
  debugEnabled : Bool
  debugSizeParams : Vec4
  outputPP : PostProcess
  debugPassPP : Option PostProcess
  nextPPId : ℕ
deriving DecidableEq, Repr

/-- `debugPassName` (the `_debugPassName` field is never reassigned). -/
def debugPassName : String := "Spatial Blur Debug Pass"

/-- `_createTextures`: builds the output post-process from the concrete
options literal in the source and clears `autoClear`.  A newly built
post-process is not ready until its effect compiles. -/
def createTextures (engine : EngineInfo) (ppId : ℕ) : PostProcess :=
  { id := ppId
    name := "spacialBlurPP"
    fragment := "iblShadowSpatialBlur"
    width := engine.renderWidth
    height := engine.renderHeight
    textureFormat := TEXTUREFORMAT_RG
    textureType := TEXTURETYPE_UNSIGNED_BYTE
    samplingMode := TEXTURE_NEAREST_SAMPLINGMODE
    uniforms := ["blurParameters"]
    samplers := ["shadowSampler", "worldNormalSampler", "linearDepthSampler"]
    reusable := false
    autoClear := false
    ready := false }

/-- The constructor: stores the scene's engine and runs
`_createTextures`.  Field initializers give `worldScale = 1`,
`debugEnabled = false`, zeroed debug size params, and no debug pass. -/
def mkPass (engine : EngineInfo) : PassState :=
  { engine := engine
    worldScale := 1
    debugEnabled := false
    debugSizeParams := ⟨0, 0, 0, 0⟩
    outputPP := createTextures engine 0
    debugPassPP := none
    nextPPId := 1 }

/-- `setWorldScale`. -/
def setWorldScale (s : PassState) (scale : ℚ) : PassState :=
  { s with worldScale := scale }

/-- `setDebugDisplayParams`. -/
def setDebugDisplayParams (s : PassState) (x y widthScale heightScale : ℚ) : PassState :=
  { s with debugSizeParams := ⟨x, y, widthScale, heightScale⟩ }

/-- `_createDebugPass`: guarded on `!this._debugPassPP`; builds the debug
post-process from the concrete options literal and clears `autoClear`. -/
def createDebugPass (s : PassState) : PassState :=
  match s.debugPassPP with
  | some _ => s
  | none =>
      { s with
        debugPassPP := some
          { id := s.nextPPId
            name := debugPassName
            fragment := "iblShadowDebug"
            width := s.engine.renderWidth
            height := s.engine.renderHeight
            textureFormat := TEXTUREFORMAT_R
            textureType := TEXTURETYPE_UNSIGNED_BYTE
            samplingMode := TEXTURE_NEAREST_SAMPLINGMODE
            uniforms := ["sizeParams"]
            samplers := ["debugSampler"]
            reusable := false
            autoClear := false
            ready := false }
        nextPPId := s.nextPPId + 1 }

/-- A placeholder post-process for modelling the non-null assertion on
`this._debugPassPP` after `_createDebugPass` has run. -/
def defaultPP : PostProcess :=
  createTextures ⟨0, 0⟩ 0

/-- `getDebugPassPP`: creates the debug pass if it does not exist yet and
returns `this._debugPassPP`. -/
def getDebugPassPP (s : PassState) : PassState × PostProcess :=
  let s1 := if s.debugPassPP.isNone then createDebugPass s else s
  (s1, s1.debugPassPP.getD defaultPP)

/-- `getPassPP`. -/
def getPassPP (s : PassState) : PostProcess :=
  s.outputPP

/-- `isReady`:
`this._outputPP.isReady() && !(this._debugPassPP && !this._debugPassPP.isReady())`;
the truthiness test on `this._debugPassPP` is `Option.isSome`. -/
def isReady (s : PassState) : Bool :=
  s.outputPP.ready &&
    !(s.debugPassPP.isSome && !(s.debugPassPP.getD defaultPP).ready)

/-- `dispose`: the ids of the post-processes it disposes, in order. -/
def dispose (s : PassState) : List ℕ :=
  s.outputPP.id ::
    (match s.debugPassPP with
     | some pp => [pp.id]
     | none => [])

/-- An `Effect` as the pass sees it: the uniform and sampler bindings
pushed onto it, in call order.  Texture objects are identified by
numbers. -/
structure Effect where
  vec4s : List (String × Vec4)
  textures : List (String × ℕ)
  ppOutputs : List (String × ℕ)
deriving DecidableEq, Repr

/-- `effect.setVector4(name, v)`. -/
def setVector4 (e : Effect) (name : String) (v : Vec4) : Effect :=
  { e with vec4s := e.vec4s ++ [(name, v)] }

/-- `effect.setTexture(name, t)`. -/
def setTexture (e : Effect) (name : String) (t : ℕ) : Effect :=
  { e with textures := e.textures ++ [(name, t)] }

/-- `effect.setTextureFromPostProcessOutput(name, pp)`. -/
def setTextureFromPostProcessOutput (e : Effect) (name : String) (pp : PostProcess) : Effect :=
  { e with ppOutputs := e.ppOutputs ++ [(name, pp.id)] }

/-- The scene's prepass renderer: `getIndex` maps a texture-type
constant to a signed index into the render target's texture array. -/
structure PrePassRenderer where
  getIndex : ℕ → ℤ
  renderTargetTextures : List ℕ

/-- `_updatePostProcess`, the blur pass's `onApply` body: pushes the
`blurParameters` vector and, when the scene has a prepass renderer,
binds the world-normal and linear-depth samplers whose semantic indices
are non-negative.  `prePassRenderer` stands for
`this._scene.prePassRenderer`. -/
def updatePostProcess (s : PassState) (prePassRenderer : Option PrePassRenderer)
    (effect : Effect) : Effect :=
  let iterationCount : ℚ := 1
  let e1 := setVector4 effect "blurParameters" ⟨iterationCount, s.worldScale, 0, 0⟩
  match prePassRenderer with
  | none => e1
  | some r =>
      let wnormalIndex := r.getIndex PREPASS_WORLD_NORMAL_TEXTURE_TYPE
      let depthIndex := r.getIndex PREPASS_DEPTH_TEXTURE_TYPE
      let e2 :=
        if wnormalIndex ≥ 0 then
          setTexture e1 "worldNormalSampler" (r.renderTargetTextures.getD wnormalIndex.toNat 0)
        else e1
      if depthIndex ≥ 0 then
        setTexture e2 "linearDepthSampler" (r.renderTargetTextures.getD depthIndex.toNat 0)
      else e2

/-- The debug pass's `onApply` body: feeds the blur output into the
debug sampler and pushes the debug size params. -/
def debugPassOnApply (s : PassState) (effect : Effect) : Effect :=
  setVector4 (setTextureFromPostProcessOutput effect "debugSampler" s.outputPP)
    "sizeParams" s.debugSizeParams

/-- The operations that can touch a pass after construction: the pass's
own mutating methods, plus the effect system flipping a post-process's
readiness when its shader finishes or loses compilation. -/
inductive PassOp where
  | getDebugPass
  | setScale (q : ℚ)
  | setDisplayParams (x y widthScale heightScale : ℚ)
  | markOutputReady (b : Bool)
  | markDebugReady (b : Bool)
deriving DecidableEq, Repr

/-- Applies one operation to the pass state. -/
def applyOp (s : PassState) : PassOp → PassState
  | PassOp.getDebugPass => (getDebugPassPP s).1
  | PassOp.setScale q => setWorldScale s q
  | PassOp.setDisplayParams x y widthScale heightScale =>
      setDebugDisplayParams s x y widthScale heightScale
  | PassOp.markOutputReady b => { s with outputPP := { s.outputPP with ready := b } }
  | PassOp.markDebugReady b =>
      { s with debugPassPP := s.debugPassPP.map (fun d => { d with ready := b }) }

/-- Runs a pass from construction through a list of operations. -/
def runOps (engine : EngineInfo) (ops : List PassOp) : PassState :=
  ops.foldl applyOp (mkPass engine)

/-- A freshly constructed pass over a 16x16 render target. -/
def p0 : PassState :=
  mkPass ⟨16, 16⟩

/-- The pass after its debug pass was requested once. -/
def p1 : PassState :=
  (getDebugPassPP p0).1

end IblBlur

namespace WebAudio

/-- A default-constructed engine state: `initState` of empty options. -/
def s0 : EngineState :=
  initState ⟨none, none, none, none⟩

/-- An engine state whose main output exists. -/
def s9 : EngineState :=
  { s0 with mainOutput := some ⟨1⟩ }

/-- An engine state observed suspended after having started. -/
def s6 : EngineState :=
  { s0 with audioContextState := CtxState.suspended, audioContextStarted := true }

/-- An engine state with two pending sound instances. -/
def s8 : EngineState :=
  { s0 with soundInstancesToStartOnNextUserInteraction := [4, 7] }

/-- Well-formedness of the format caches: every cached-valid format is in
the MIME table.  Holds initially (the sets start empty) and is preserved
by `formatIsValid` and `flagInvalidFormat`, which only add in-table
formats to the valid set. -/
def FormatsWF (s : EngineState) : Prop :=
  ∀ f ∈ s.validFormats, (lookupMimeType f).isSome = true

theorem formatsWF_initState (options : EngineOptions) : FormatsWF (initState options) := by
  intro f hf
  simp [initState] at hf

theorem formatsWF_flagInvalidFormat (s : EngineState) (format : String)
    (h : FormatsWF s) : FormatsWF (flagInvalidFormat s format) := by
  intro f hf
  unfold flagInvalidFormat at hf
  split at hf <;> exact h f hf

theorem formatsWF_formatIsValid (canPlayType : String → String) (s : EngineState)
    (format : String) (h : FormatsWF s) :
    FormatsWF (formatIsValid canPlayType s format).state := by
  intro f hf
  unfold formatIsValid at hf
  by_cases hv : format ∈ s.validFormats
  · simp [hv] at hf
    exact h f hf
  · by_cases hi : format ∈ s.invalidFormats
    · simp [hv, hi] at hf
      exact h f hf
    · cases hm : lookupMimeType format with
      | none =>
          rw [hm] at hf
          simp [hv, hi] at hf
          exact h f hf
      | some mimeType =>
          rw [hm] at hf
          by_cases hc : canPlayType mimeType = ""
          · simp [hv, hi, hc] at hf
            exact h f hf
          · simp [hv, hi, hc, List.mem_cons] at hf
            rcases hf with rfl | hf
            · rw [hm]
              rfl
            · exact h f hf

theorem formatIsValid_result_mem (canPlayType : String → String) (s : EngineState)
    (format : String) (h : (formatIsValid canPlayType s format).result = true) :
    format ∈ (formatIsValid canPlayType s format).state.validFormats := by
  unfold formatIsValid at h ⊢
  by_cases hv : format ∈ s.validFormats
  · simp [hv]
  · by_cases hi : format ∈ s.invalidFormats
    · simp [hv, hi] at h
    · cases hm : lookupMimeType format with
      | none => simp [hv, hi, hm] at h
      | some mimeType =>
          by_cases hc : canPlayType mimeType = ""
          · simp [hv, hi, hm, hc] at h
          · simp [hv, hi, hm, hc]

theorem formatIsValid_of_mem_valid (canPlayType : String → String) (t : EngineState)
    (format : String) (h : format ∈ t.validFormats) :
    formatIsValid canPlayType t format = ⟨t, true, false⟩ := by
  unfold formatIsValid
  simp [h]

/-- C1: for an engine whose context is not yet running and which has no
cached resume promise, the first `resume()` call caches the promise
obtained from `audioContext.resume()`, and any call made while a cached
promise `p` is set returns exactly that promise and leaves the state
unchanged; in particular the call right after the first returns the
context promise the first call cached.  (The first call itself resolves
with `undefined`, since the source never returns the freshly cached
promise.) -/
theorem resume_dedup (s t : EngineState) (p : ℕ)
    (hrun : s.audioContextState ≠ CtxState.running)
    (hfirst : s.resumePromise = none)
    (ht : t.resumePromise = some p) :
    (resume s).1.resumePromise = some (audioContextResume s).1 ∧
    resume t = (t, some p) ∧
    (resume (resume s).1).2 = some (audioContextResume s).1 := by
  refine ⟨?_, ?_, ?_⟩
  · simp [resume, hfirst, audioContextResume]
  · simp [resume, ht]
  · simp [resume, hfirst, audioContextResume]

theorem resume_dedup_witness :
    (resume s0).1.resumePromise = some (audioContextResume s0).1 ∧
    resume (resume s0).1 = ((resume s0).1, some 0) ∧
    (resume (resume s0).1).2 = some (audioContextResume s0).1 :=
  resume_dedup s0 (resume s0).1 0 (by decide) (by decide) (by decide)

/-- C9: the `volume` getter returns the stored volume; setting the
volume to the stored value changes nothing at all; setting it to a
different value stores it, pushes it to the main output exactly when one
exists, and touches no other field. -/
theorem volume_spec (s : EngineState) (v : ℚ) :
    getVolume s = s.volume ∧
    (s.volume = v → setVolume s v = s) ∧
    (s.volume ≠ v →
      setVolume s v =
        { s with
          volume := v,
          mainOutput := s.mainOutput.map (fun m => { m with volume := v }) }) := by
  refine ⟨rfl, ?_, ?_⟩
  · intro h
    simp [setVolume, h]
  · intro h
    cases hm : s.mainOutput with
    | none => simp [setVolume, h, hm]
    | some m => simp [setVolume, h, hm]

theorem volume_spec_witness :
    getVolume s9 = s9.volume ∧
    (s9.volume = 1 → setVolume s9 1 = s9) ∧
    (s9.volume ≠ 1 →
      setVolume s9 1 =
        { s9 with
          volume := 1,
          mainOutput := s9.mainOutput.map (fun m => { m with volume := 1 }) }) :=
  volume_spec s9 1

/-- C10: `flagInvalidFormat` never overrides a cached positive probe:
once `formatIsValid` has returned `true` for a format, flagging that
format invalid leaves subsequent `formatIsValid` calls returning `true`
(the valid set is consulted first), without probing and without further
state change. -/
theorem flagInvalid_no_override (canPlayType : String → String) (s : EngineState)
    (format : String) (h : (formatIsValid canPlayType s format).result = true) :
    formatIsValid canPlayType
        (flagInvalidFormat (formatIsValid canPlayType s format).state format) format =
      ⟨flagInvalidFormat (formatIsValid canPlayType s format).state format, true, false⟩ := by
  have hmem := formatIsValid_result_mem canPlayType s format h
  have hmem2 : format ∈
      (flagInvalidFormat (formatIsValid canPlayType s format).state format).validFormats := by
    unfold flagInvalidFormat
    split <;> simpa using hmem
  exact formatIsValid_of_mem_valid canPlayType _ format hmem2

/-- C2: `formatIsValid` is memoized.  A repeated call for the same
format returns the same result as the first call, changes nothing, and
performs no probe; when the first call probed, its outcome is recorded
in the valid or invalid set; a format absent from the extension-to-MIME
table yields `false` (given the well-formedness invariant that cached
valid formats are in the table, which holds for every reachable
engine). -/
theorem formatIsValid_memoized (canPlayType : String → String) (s : EngineState)
    (format : String) (hwf : FormatsWF s) :
    formatIsValid canPlayType (formatIsValid canPlayType s format).state format =
      ⟨(formatIsValid canPlayType s format).state,
        (formatIsValid canPlayType s format).result, false⟩ ∧
    ((formatIsValid canPlayType s format).probed = true →
      (if (formatIsValid canPlayType s format).result then
        format ∈ (formatIsValid canPlayType s format).state.validFormats
      else format ∈ (formatIsValid canPlayType s format).state.invalidFormats)) ∧
    (lookupMimeType format = none →
      (formatIsValid canPlayType s format).result = false) := by
  by_cases hv : format ∈ s.validFormats
  · have hr : formatIsValid canPlayType s format = ⟨s, true, false⟩ :=
      formatIsValid_of_mem_valid canPlayType s format hv
    refine ⟨?_, ?_, ?_⟩
    · rw [hr]
      exact formatIsValid_of_mem_valid canPlayType s format hv
    · rw [hr]
      intro hp
      simp at hp
    · intro hnone
      have hsome := hwf format hv
      rw [hnone] at hsome
      simp at hsome
  · by_cases hi : format ∈ s.invalidFormats
    · have hr : formatIsValid canPlayType s format = ⟨s, false, false⟩ := by
        unfold formatIsValid
        simp [hv, hi]
      refine ⟨?_, ?_, ?_⟩
      · rw [hr]
        unfold formatIsValid
        simp [hv, hi]
      · rw [hr]
        intro hp
        simp at hp
      · intro _
        rw [hr]
    · cases hm : lookupMimeType format with
      | none =>
          have hr : formatIsValid canPlayType s format = ⟨s, false, false⟩ := by
            unfold formatIsValid
            simp [hv, hi, hm]
          refine ⟨?_, ?_, ?_⟩
          · rw [hr]
            unfold formatIsValid
            simp [hv, hi, hm]
          · rw [hr]
            intro hp
            simp at hp
          · intro _
            rw [hr]
      | some mimeType =>
          by_cases hc : canPlayType mimeType = ""
          · have hr : formatIsValid canPlayType s format =
                ⟨{ s with invalidFormats := format :: s.invalidFormats }, false, true⟩ := by
              unfold formatIsValid
              simp [hv, hi, hm, hc]
            refine ⟨?_, ?_, ?_⟩
            · rw [hr]
              unfold formatIsValid
              simp [hv]
            · rw [hr]
              intro _
              simp
            · intro hnone
              simp at hnone
          · have hr : formatIsValid canPlayType s format =
                ⟨{ s with validFormats := format :: s.validFormats }, true, true⟩ := by
              unfold formatIsValid
              simp [hv, hi, hm, hc]
            refine ⟨?_, ?_, ?_⟩
            · rw [hr]
              exact formatIsValid_of_mem_valid canPlayType _ format (by simp)
            · rw [hr]
              intro _
              simp
            · intro hnone
              simp at hnone

theorem formatIsValid_memoized_witness :
    formatIsValid (fun _ => "") (formatIsValid (fun _ => "") s0 "wav").state "wav" =
      ⟨(formatIsValid (fun _ => "") s0 "wav").state,
        (formatIsValid (fun _ => "") s0 "wav").result, false⟩ ∧
    ((formatIsValid (fun _ => "") s0 "wav").probed = true →
      (if (formatIsValid (fun _ => "") s0 "wav").result then
        "wav" ∈ (formatIsValid (fun _ => "") s0 "wav").state.validFormats
      else "wav" ∈ (formatIsValid (fun _ => "") s0 "wav").state.invalidFormats)) ∧
    (lookupMimeType "wav" = none →
      (formatIsValid (fun _ => "") s0 "wav").result = false) :=
  formatIsValid_memoized (fun _ => "") s0 "wav" (formatsWF_initState ⟨none, none, none, none⟩)

/-- C6: the `statechange` listener never allocates a resume timer before
the context has been observed running (`audioContextStarted = false`
implies the timer counter is untouched); on "running" it clears the
timer, marks the context started, and clears the cached resume promise;
on "suspended"/"interrupted" it replaces any existing timer with a fresh
one exactly when the context has started and resume-on-pause is
enabled, and otherwise leaves the state unchanged. -/
theorem stateChange_timer (s : EngineState) :
    (s.audioContextStarted = false →
      (onAudioContextStateChange s).nextTimerId = s.nextTimerId) ∧
    (s.audioContextState = CtxState.running →
      onAudioContextStateChange s =
        { s with
          resumeOnPauseTimerId := none,
          audioContextStarted := true,
          resumePromise := none }) ∧
    ((s.audioContextState = CtxState.suspended ∨
        s.audioContextState = CtxState.interrupted) →
      ((s.audioContextStarted = true ∧ s.resumeOnPause = true) →
        onAudioContextStateChange s =
          { s with
            resumeOnPauseTimerId := some s.nextTimerId,
            nextTimerId := s.nextTimerId + 1 }) ∧
      (¬(s.audioContextStarted = true ∧ s.resumeOnPause = true) →
        onAudioContextStateChange s = s)) := by
  cases hst : s.audioContextState with
  | running =>
      refine ⟨?_, ?_, ?_⟩
      · intro _
        simp [onAudioContextStateChange, hst]
      · intro _
        simp [onAudioContextStateChange, hst]
      · intro hcontra
        rcases hcontra with hc | hc <;> cases hc
  | suspended =>
      refine ⟨?_, ?_, ?_⟩
      · intro hstarted
        simp [onAudioContextStateChange, hst, hstarted]
      · intro hcontra
        cases hcontra
      · intro _
        constructor
        · rintro ⟨h1, h2⟩
          simp [onAudioContextStateChange, hst, h1, h2]
        · intro hneg
          rcases Decidable.not_and_iff_or_not.mp hneg with h1 | h2
          · have h1b : s.audioContextStarted = false := by
              cases hb : s.audioContextStarted
              · rfl
              · exact absurd hb h1
            simp [onAudioContextStateChange, hst, h1b]
          · have h2b : s.resumeOnPause = false := by
              cases hb : s.resumeOnPause
              · rfl
              · exact absurd hb h2
            simp [onAudioContextStateChange, hst, h2b]
  | interrupted =>
      refine ⟨?_, ?_, ?_⟩
      · intro hstarted
        simp [onAudioContextStateChange, hst, hstarted]
      · intro hcontra
        cases hcontra
      · intro _
        constructor
        · rintro ⟨h1, h2⟩
          simp [onAudioContextStateChange, hst, h1, h2]
        · intro hneg
          rcases Decidable.not_and_iff_or_not.mp hneg with h1 | h2
          · have h1b : s.audioContextStarted = false := by
              cases hb : s.audioContextStarted
              · rfl
              · exact absurd hb h1
            simp [onAudioContextStateChange, hst, h1b]
          · have h2b : s.resumeOnPause = false := by
              cases hb : s.resumeOnPause
              · rfl
              · exact absurd hb h2
            simp [onAudioContextStateChange, hst, h2b]
  | closed =>
      refine ⟨?_, ?_, ?_⟩
      · intro _
        simp [onAudioContextStateChange, hst]
      · intro hcontra
        cases hcontra
      · intro hcontra
        rcases hcontra with hc | hc <;> cases hc

theorem stateChange_timer_witness :
    (s6.audioContextStarted = false →
      (onAudioContextStateChange s6).nextTimerId = s6.nextTimerId) ∧
    (s6.audioContextState = CtxState.running →
      onAudioContextStateChange s6 =
        { s6 with
          resumeOnPauseTimerId := none,
          audioContextStarted := true,
          resumePromise := none }) ∧
    ((s6.audioContextState = CtxState.suspended ∨
        s6.audioContextState = CtxState.interrupted) →
      ((s6.audioContextStarted = true ∧ s6.resumeOnPause = true) →
        onAudioContextStateChange s6 =
          { s6 with
            resumeOnPauseTimerId := some s6.nextTimerId,
            nextTimerId := s6.nextTimerId + 1 }) ∧
      (¬(s6.audioContextStarted = true ∧ s6.resumeOnPause = true) →
        onAudioContextStateChange s6 = s6)) :=
  stateChange_timer s6


/-- C7: when the options carry no audio context the constructor creates
a fresh one; in the creation trace the readiness promise is resolved
exactly once, as the final step, strictly after the main output and the
default main bus are created. -/
theorem init_ready_order (options : EngineOptions) (freshCtx : ℕ)
    (h : options.audioContext = none) :
    constructorAudioContext options freshCtx = (freshCtx, true) ∧
    InitEvent.contextCreated ∈ createEngineTrace options ∧
    (createEngineTrace options).count InitEvent.readyResolved = 1 ∧
    (createEngineTrace options).getLast? = some InitEvent.readyResolved ∧
    InitEvent.readyResolved ∉ (createEngineTrace options).dropLast ∧
    InitEvent.mainOutputCreated ∈ (createEngineTrace options).dropLast ∧
    InitEvent.defaultBusCreated ∈ (createEngineTrace options).dropLast := by
  have ht : createEngineTrace options =
      [ InitEvent.contextCreated, InitEvent.clickListenerAdded,
        InitEvent.stateChangeListenerAdded, InitEvent.mainOutputCreated,
        InitEvent.mainOutputVolumeSet, InitEvent.defaultBusCreated,
        InitEvent.readyResolved ] := by
    simp [createEngineTrace, constructorTrace, initTrace, h]
  refine ⟨by simp [constructorAudioContext, h], ?_, ?_, ?_, ?_, ?_, ?_⟩ <;> rw [ht] <;> decide

theorem init_ready_order_witness :
    constructorAudioContext ⟨none, none, none, none⟩ 5 = (5, true) ∧
    InitEvent.contextCreated ∈ createEngineTrace ⟨none, none, none, none⟩ ∧
    (createEngineTrace ⟨none, none, none, none⟩).count InitEvent.readyResolved = 1 ∧
    (createEngineTrace ⟨none, none, none, none⟩).getLast? = some InitEvent.readyResolved ∧
    InitEvent.readyResolved ∉ (createEngineTrace ⟨none, none, none, none⟩).dropLast ∧
    InitEvent.mainOutputCreated ∈ (createEngineTrace ⟨none, none, none, none⟩).dropLast ∧
    InitEvent.defaultBusCreated ∈ (createEngineTrace ⟨none, none, none, none⟩).dropLast :=
  init_ready_order ⟨none, none, none, none⟩ 5 rfl

theorem drainLoop_spec (l : List ℕ) : ∀ s : EngineState,
    s.soundInstancesToStartOnNextUserInteraction = l →
    (drainLoop l s).soundInstancesToStartOnNextUserInteraction = [] ∧
    (drainLoop l s).playedInstances = s.playedInstances ++ l ∧
    (drainLoop l s).nextPromiseId = s.nextPromiseId := by
  induction l with
  | nil =>
      intro s h
      exact ⟨by simp [drainLoop, h], by simp [drainLoop], rfl⟩
  | cons i rest ih =>
      intro s h
      have h2 : s.soundInstancesToStartOnNextUserInteraction.erase i = rest := by
        rw [h]
        exact List.erase_cons_head i rest
      obtain ⟨ha, hb, hc⟩ := ih
        { s with
          playedInstances := s.playedInstances ++ [i],
          soundInstancesToStartOnNextUserInteraction :=
            s.soundInstancesToStartOnNextUserInteraction.erase i }
        (by simpa using h2)
      refine ⟨?_, ?_, ?_⟩
      · rw [drainLoop]
        exact ha
      · rw [drainLoop, hb]
        simp
      · rw [drainLoop]
        exact hc

/-- C8: when resume-on-interaction is enabled, the user-interaction
handler resumes the audio context and then starts every instance in the
pending-instances set, removing each from it, so the set is empty when
the handler finishes and exactly the pending instances were played, in
order. -/
theorem userInteraction_drains (s : EngineState) (h : s.resumeOnInteraction = true) :
    (onUserInteraction s).soundInstancesToStartOnNextUserInteraction = [] ∧
    (onUserInteraction s).playedInstances =
      s.playedInstances ++ s.soundInstancesToStartOnNextUserInteraction ∧
    (onUserInteraction s).nextPromiseId = s.nextPromiseId + 1 := by
  obtain ⟨ha, hb, hc⟩ := drainLoop_spec s.soundInstancesToStartOnNextUserInteraction
    { s with nextPromiseId := s.nextPromiseId + 1 } rfl
  unfold onUserInteraction audioContextResume
  rw [if_pos h]
  exact ⟨by simpa using ha, by simpa using hb, by simpa using hc⟩

theorem userInteraction_drains_witness :
    (onUserInteraction s8).soundInstancesToStartOnNextUserInteraction = [] ∧
    (onUserInteraction s8).playedInstances =
      s8.playedInstances ++ s8.soundInstancesToStartOnNextUserInteraction ∧
    (onUserInteraction s8).nextPromiseId = s8.nextPromiseId + 1 :=
  userInteraction_drains s8 (by decide)

theorem flagInvalid_no_override_witness :
    formatIsValid (fun _ => "maybe")
        (flagInvalidFormat (formatIsValid (fun _ => "maybe") s0 "mp3").state "mp3") "mp3" =
      ⟨flagInvalidFormat (formatIsValid (fun _ => "maybe") s0 "mp3").state "mp3",
        true, false⟩ :=
  flagInvalid_no_override (fun _ => "maybe") s0 "mp3" (by decide)

end WebAudio

namespace IblBlur

theorem getDebugPassPP_isSome (s : PassState) :
    ((getDebugPassPP s).1.debugPassPP).isSome = true := by
  unfold getDebugPassPP createDebugPass
  cases hd : s.debugPassPP with
  | none => simp [hd]
  | some pp => simp [hd]

theorem foldl_debug_isSome (ops : List PassOp) : ∀ s : PassState,
    ((ops.foldl applyOp s).debugPassPP.isSome = true ↔
      (s.debugPassPP.isSome = true ∨ PassOp.getDebugPass ∈ ops)) := by
  induction ops with
  | nil =>
      intro s
      simp
  | cons op rest ih =>
      intro s
      rw [List.foldl_cons, ih]
      have hop : ((applyOp s op).debugPassPP.isSome = true) ↔
          (s.debugPassPP.isSome = true ∨ op = PassOp.getDebugPass) := by
        cases op with
        | getDebugPass => simp [applyOp, getDebugPassPP_isSome]
        | setScale q => simp [applyOp, setWorldScale]
        | setDisplayParams x y w h => simp [applyOp, setDebugDisplayParams]
        | markOutputReady b => simp [applyOp]
        | markDebugReady b => simp [applyOp]
      rw [hop]
      simp only [List.mem_cons]
      constructor
      · rintro ((h | h) | h)
        · exact Or.inl h
        · exact Or.inr (Or.inl h.symm)
        · exact Or.inr (Or.inr h)
      · rintro (h | h | h)
        · exact Or.inl (Or.inl h)
        · exact Or.inl (Or.inr h.symm)
        · exact Or.inr h

/-- C3: `isReady` returns true exactly when the output post-process is
ready and the debug post-process, when it has been created, is ready
too; in particular `isReady` is false whenever the output post-process
is not ready, regardless of the debug pass's state. -/
theorem isReady_iff (s : PassState) :
    (isReady s = true ↔
      (s.outputPP.ready = true ∧
        (s.debugPassPP.isSome = true → (s.debugPassPP.getD defaultPP).ready = true))) ∧
    (s.outputPP.ready = false → isReady s = false) := by
  cases hd : s.debugPassPP with
  | none =>
      constructor
      · simp [isReady, hd]
      · intro h
        simp [isReady, hd, h]
  | some d =>
      constructor
      · cases hr : d.ready <;> cases ho : s.outputPP.ready <;> simp [isReady, hd, hr, ho]
      · intro h
        simp [isReady, hd, h]

theorem isReady_iff_witness :
    (isReady p1 = true ↔
      (p1.outputPP.ready = true ∧
        (p1.debugPassPP.isSome = true → (p1.debugPassPP.getD defaultPP).ready = true))) ∧
    (p1.outputPP.ready = false → isReady p1 = false) :=
  isReady_iff p1

/-- C4: the debug post-process is lazy: a freshly constructed pass has
none; a `getDebugPassPP` call on a pass without one creates exactly one
debug post-process (a single fresh object id is allocated) and returns
it; a call on a pass that already has one returns that same instance and
changes nothing; and over every operation sequence from construction the
debug pass exists iff `getDebugPassPP` was called at least once. -/
theorem debugPass_lazy (engine : EngineInfo) (ops : List PassOp) (s t : PassState)
    (pp : PostProcess) (hs : s.debugPassPP = none) (ht : t.debugPassPP = some pp) :
    (mkPass engine).debugPassPP = none ∧
    (getDebugPassPP s).1.debugPassPP = some (getDebugPassPP s).2 ∧
    (getDebugPassPP s).2.id = s.nextPPId ∧
    (getDebugPassPP s).1.nextPPId = s.nextPPId + 1 ∧
    getDebugPassPP t = (t, pp) ∧
    ((runOps engine ops).debugPassPP.isSome = true ↔ PassOp.getDebugPass ∈ ops) := by
  refine ⟨rfl, ?_, ?_, ?_, ?_, ?_⟩
  · simp [getDebugPassPP, createDebugPass, hs]
  · simp [getDebugPassPP, createDebugPass, hs]
  · simp [getDebugPassPP, createDebugPass, hs]
  · simp [getDebugPassPP, createDebugPass, ht]
  · rw [runOps, foldl_debug_isSome]
    simp [mkPass]

theorem debugPass_lazy_witness :
    (mkPass ⟨16, 16⟩).debugPassPP = none ∧
    (getDebugPassPP p0).1.debugPassPP = some (getDebugPassPP p0).2 ∧
    (getDebugPassPP p0).2.id = p0.nextPPId ∧
    (getDebugPassPP p0).1.nextPPId = p0.nextPPId + 1 ∧
    getDebugPassPP p1 = (p1, (getDebugPassPP p0).2) ∧
    ((runOps ⟨16, 16⟩ [PassOp.setScale 2, PassOp.getDebugPass]).debugPassPP.isSome = true ↔
      PassOp.getDebugPass ∈ [PassOp.setScale 2, PassOp.getDebugPass]) :=
  debugPass_lazy ⟨16, 16⟩ [PassOp.setScale 2, PassOp.getDebugPass] p0 p1
    (getDebugPassPP p0).2 rfl rfl

/-- C5: every application of the blur pass sets the effect's
`blurParameters` uniform to (iteration count 1, world scale, 0, 0); with
a prepass renderer present, the world-normal sampler is bound only when
its semantic index is non-negative and the linear-depth sampler only
when the depth index is non-negative, a negative index skipping that
binding; the update is a total function on effects, so a skipped binding
raises no error. -/
theorem updatePostProcess_spec (s : PassState) (e : Effect) (r : PrePassRenderer) :
    ((updatePostProcess s none e).vec4s =
      e.vec4s ++ [("blurParameters", ⟨1, s.worldScale, 0, 0⟩)]) ∧
    ((updatePostProcess s (some r) e).vec4s =
      e.vec4s ++ [("blurParameters", ⟨1, s.worldScale, 0, 0⟩)]) ∧
    ((updatePostProcess s none e).textures = e.textures) ∧
    ((updatePostProcess s (some r) e).textures =
      e.textures ++
        (if r.getIndex PREPASS_WORLD_NORMAL_TEXTURE_TYPE ≥ 0 then
          [("worldNormalSampler",
            r.renderTargetTextures.getD (r.getIndex PREPASS_WORLD_NORMAL_TEXTURE_TYPE).toNat 0)]
         else []) ++
        (if r.getIndex PREPASS_DEPTH_TEXTURE_TYPE ≥ 0 then
          [("linearDepthSampler",
            r.renderTargetTextures.getD (r.getIndex PREPASS_DEPTH_TEXTURE_TYPE).toNat 0)]
         else [])) := by
  refine ⟨?_, ?_, ?_, ?_⟩
  · simp [updatePostProcess, setVector4]
  · by_cases h1 : r.getIndex PREPASS_WORLD_NORMAL_TEXTURE_TYPE ≥ 0 <;>
      by_cases h2 : r.getIndex PREPASS_DEPTH_TEXTURE_TYPE ≥ 0 <;>
        simp [updatePostProcess, setVector4, setTexture, h1, h2]
  · simp [updatePostProcess, setVector4]
  · by_cases h1 : r.getIndex PREPASS_WORLD_NORMAL_TEXTURE_TYPE ≥ 0 <;>
      by_cases h2 : r.getIndex PREPASS_DEPTH_TEXTURE_TYPE ≥ 0 <;>
        simp [updatePostProcess, setVector4, setTexture, h1, h2]

end IblBlur
